import Mathlib

/-!
# Verification of the gym-management core logic

Shallow embedding of the core logic of `src/App.js`: shift
capacity/booking consistency, membership payment-status derivation,
client-to-account association resolution, cascading client deletion,
modality deletion with referential check, payment recording and shift
creation validation.

Documents of the external store are modelled as Lean structures; the
collections delivered by the store's subscription are Lean lists; the
handlers' read-modify-write sequences become pure functions from the
snapshot to the updated snapshot, paired with the user-visible outcome.
-/

namespace GymApp

/-- A shift document (`shifts` collection): date, time, capacity,
modality reference, and the array of booked client ids. -/
structure Shift where
  id : Nat
  date : String
  time : String
  capacity : Int
  modalityId : String
  bookedClients : List String
  deriving DecidableEq, Repr

/-- A payment document (`payments` collection). `recordedAt` models the
`date: serverTimestamp()` field (time of entry). `amount` models the
numeric value produced by `parseFloat`. -/
structure Payment where
  clientId : String
  amount : Int
  paymentMonth : Int
  paymentYear : Int
  recordedAt : Int
  deriving DecidableEq, Repr

/-- A client document (`clients` collection); `associatedUserUid` is the
optional link to an end-user account. -/
structure Client where
  id : String
  name : String
  associatedUserUid : Option String
  deriving DecidableEq, Repr

/-- The three user-visible payment states: `Al día` / `Vencido` /
`Pendiente` in the source. -/
inductive PaymentStatus where
  | paid
  | overdue
  | pending
  deriving DecidableEq, Repr

/-- The month, year and day-of-month extracted from `new Date()` in
`getPaymentStatus` (`getMonth() + 1`, `getFullYear()`, `getDate()`). -/
structure DateParts where
  month : Int
  year : Int
  day : Int
  deriving DecidableEq, Repr

/-- The predicate tested by `payments.some(...)` in `getPaymentStatus`:
the payment belongs to the client and is tagged with the current month
and year. -/
def paymentMatches (clientId : String) (today : DateParts) (p : Payment) : Bool :=
  p.clientId == clientId && p.paymentMonth == today.month && p.paymentYear == today.year

/-- `getPaymentStatus` (both the Dashboard and the Clients copy, lines
592-629 and 1487-1524 of `App.js`): paid if some payment matches the
client and the current month/year; otherwise overdue after the 10th,
else pending. -/
def getPaymentStatus (payments : List Payment) (clientId : String)
    (today : DateParts) : PaymentStatus :=
  if payments.any (paymentMatches clientId today) then
    .paid
  else if today.day > 10 then
    .overdue
  else
    .pending

/-- Outcome of `handleBookClient` / `handleBookShift`: the two
business-rule rejections or success. -/
inductive BookResult where
  | alreadyBooked
  | capacityExceeded
  | success
  deriving DecidableEq, Repr

/-- `handleBookClient` (lines 957-996) and `handleBookShift` (lines
3028-3060) of `App.js`, restricted to one shift: if the client id is
already in `bookedClients` the handler returns with an error message and
performs no write; if `bookedClients.length >= capacity` likewise;
otherwise it writes `[...bookedClients, clientId]`. The returned shift
is the document after the operation (unchanged on failure, since no
`updateDoc` is issued). -/
def handleBookClient (shift : Shift) (clientId : String) : BookResult × Shift :=
  if clientId ∈ shift.bookedClients then
    (.alreadyBooked, shift)
  else if shift.capacity ≤ (shift.bookedClients.length : Int) then
    (.capacityExceeded, shift)
  else
    (.success, { shift with bookedClients := shift.bookedClients ++ [clientId] })

/-- `handleRemoveClientFromShift` (lines 999-1024) and
`handleUnbookShift` (lines 3062-3086) of `App.js`, restricted to one
shift: unconditionally writes `bookedClients.filter(id => id !==
clientIdToRemove)`. The function is total: no error path exists. -/
def handleRemoveClientFromShift (shift : Shift) (clientIdToRemove : String) : Shift :=
  { shift with bookedClients := shift.bookedClients.filter (fun id => id ≠ clientIdToRemove) }

/-- One document of the `artifacts/{appId}/users` collection together
with its `clients` subcollection, as scanned by `fetchClientProfile`:
the account's role and the tenant's client roster, in store order. -/
structure UserDoc where
  id : String
  role : String
  clients : List Client
  deriving DecidableEq, Repr

/-- `fetchClientProfile` (lines 2909-2948 of `App.js`): scan all user
docs in order; for each with `role == "admin"`, query its `clients`
subcollection for `associatedUserUid == userId`; on the first non-empty
result take `docs[0]` and `break`, returning the (admin uid, client)
pair; `none` models the NotAssociated guidance message shown when the
scan finds nothing. -/
def fetchClientProfile (users : List UserDoc) (userId : String) :
    Option (String × Client) :=
  match users with
  | [] => none
  | u :: rest =>
    if u.role = "admin" then
      match u.clients.filter (fun c => c.associatedUserUid = some userId) with
      | [] => fetchClientProfile rest userId
      | c :: _ => some (u.id, c)
    else
      fetchClientProfile rest userId

/-- The tenant-scoped collections touched by the cascading client
deletion and by the modality deletion. -/
structure GymState where
  clients : List Client
  payments : List Payment
  shifts : List Shift
  modalities : List String
  deriving DecidableEq, Repr

/-- `confirmDeleteClient` (lines 1611-1662 of `App.js`): delete the
client document, delete every payment whose `clientId` equals the
deleted id, and for every shift whose `bookedClients` array-contains the
id (the `array-contains` query), write `bookedClients` filtered of the
id. Shifts the query does not return are untouched. -/
def confirmDeleteClient (st : GymState) (clientToDelete : String) : GymState :=
  { st with
    clients := st.clients.filter (fun c => c.id ≠ clientToDelete)
    payments := st.payments.filter (fun p => p.clientId ≠ clientToDelete)
    shifts := st.shifts.map (fun s =>
      if clientToDelete ∈ s.bookedClients then
        { s with bookedClients := s.bookedClients.filter (fun id => id ≠ clientToDelete) }
      else s) }

/-- Outcome of `confirmDeleteModality`: the referential-conflict
rejection ("hay turnos asociados") or success. -/
inductive DeleteModalityResult where
  | referentialConflict
  | success
  deriving DecidableEq, Repr

/-- `confirmDeleteModality` (lines 2498-2533 of `App.js`): query the
shifts whose `modalityId` equals the modality to delete; if the
snapshot is non-empty, show the conflict message and return without
deleting; otherwise delete the modality document. The returned state is
the collections after the operation. Modalities are identified by their
document id. -/
def confirmDeleteModality (st : GymState) (modalityToDelete : String) :
    DeleteModalityResult × GymState :=
  if st.shifts.any (fun s => s.modalityId == modalityToDelete) then
    (.referentialConflict, st)
  else
    (.success, { st with modalities := st.modalities.filter (fun m => m ≠ modalityToDelete) })

/-- The form fields read by `handleAddPayment`. `amount` is the result
of `parseFloat(newPaymentAmount)`: `none` models an empty field or a
string that parses to `NaN` (both rejected); `month`/`year` are the
numeric values of the selects, where `0` models a falsy (missing)
value. -/
structure PaymentInput where
  clientId : String
  amount : Option Int
  month : Int
  year : Int
  deriving DecidableEq, Repr

/-- `handleAddPayment` (lines 2056-2102 of `App.js`): rejects when the
client id is falsy, the amount is falsy / does not parse / parses to a
value `≤ 0`, or the month or year is falsy; otherwise `addDoc`s a
payment stamped with `serverTimestamp()` (the parameter `now`). `none`
models the inline validation message; `some` carries the payments
collection after the insert. -/
def handleAddPayment (payments : List Payment) (now : Int) (inp : PaymentInput) :
    Option (List Payment) :=
  if inp.clientId = "" ∨ inp.amount = none ∨ (∃ a, inp.amount = some a ∧ a ≤ 0) then
    none
  else if inp.month = 0 ∨ inp.year = 0 then
    none
  else
    some (payments ++ [{ clientId := inp.clientId, amount := inp.amount.getD 0,
                         paymentMonth := inp.month, paymentYear := inp.year,
                         recordedAt := now }])

/-- The form fields read by `handleAddShift` / `handleUpdateShift`:
empty string models a falsy date/time/modality, `capacity` the numeric
value of the capacity input. -/
structure ShiftInput where
  date : String
  time : String
  capacity : Int
  modalityId : String
  deriving DecidableEq, Repr

/-- The shared validation of `handleAddShift` (lines 835-876) and
`handleUpdateShift` (lines 889-930): `!date || !time || capacity <= 0
|| !modality` rejects the form. -/
def shiftInputValid (inp : ShiftInput) : Bool :=
  !(inp.date == "" || inp.time == "" || inp.capacity ≤ 0 || inp.modalityId == "")

/-- `handleAddShift` (lines 835-876 of `App.js`): on valid input,
`addDoc` a shift with the form fields and `bookedClients: []`; `id` is
the store-assigned document id (modelled by the caller-supplied counter).
`none` models the inline validation message. -/
def handleAddShift (shifts : List Shift) (nextId : Nat) (inp : ShiftInput) :
    Option (List Shift) :=
  if shiftInputValid inp then
    some (shifts ++ [{ id := nextId, date := inp.date, time := inp.time,
                       capacity := inp.capacity, modalityId := inp.modalityId,
                       bookedClients := [] }])
  else
    none

/-- `handleUpdateShift` (lines 889-930 of `App.js`): on valid input,
`updateDoc` the shift's `date`, `time`, `capacity` and `modalityId`;
`bookedClients` is not among the written fields. On invalid input
nothing is written. Applied pointwise to the shift with the given id. -/
def handleUpdateShift (shifts : List Shift) (sid : Nat) (inp : ShiftInput) :
    List Shift :=
  if shiftInputValid inp then
    shifts.map (fun s =>
      if s.id = sid then
        { s with date := inp.date, time := inp.time,
                 capacity := inp.capacity, modalityId := inp.modalityId }
      else s)
  else
    shifts

/-- The shift operations the application can perform on the `shifts`
collection: admin create/update/delete, admin or self-service
book/unbook, and the shift part of the cascading client deletion. -/
inductive Op where
  | create (inp : ShiftInput)
  | update (sid : Nat) (inp : ShiftInput)
  | book (sid : Nat) (clientId : String)
  | unbook (sid : Nat) (clientId : String)
  | removeClient (clientId : String)
  | deleteShift (sid : Nat)
  deriving DecidableEq, Repr

/-- The `shifts` collection together with the store's id counter
(modelling the store-assigned document ids). -/
structure SchedState where
  shifts : List Shift
  nextId : Nat
  deriving DecidableEq, Repr

/-- One application-level operation on the `shifts` collection, each
delegating to the corresponding handler. `book` carries the
`!selectedClientForBooking` guard of `handleBookClient` (empty selection
is rejected before any read). Handlers that target one shift id are
applied pointwise to the shifts bearing that id, which agrees with the
`find`-then-`updateDoc` sequence of the source since document ids are
unique. -/
def applyOp (st : SchedState) : Op → SchedState
  | .create inp =>
    match handleAddShift st.shifts st.nextId inp with
    | none => st
    | some shifts => { shifts := shifts, nextId := st.nextId + 1 }
  | .update sid inp => { st with shifts := handleUpdateShift st.shifts sid inp }
  | .book sid clientId =>
    if clientId = "" then st
    else { st with shifts := st.shifts.map (fun s =>
      if s.id = sid then (handleBookClient s clientId).2 else s) }
  | .unbook sid clientId =>
    { st with shifts := st.shifts.map (fun s =>
      if s.id = sid then handleRemoveClientFromShift s clientId else s) }
  | .removeClient clientId =>
    { st with shifts := st.shifts.map (fun s =>
      if clientId ∈ s.bookedClients then
        { s with bookedClients := s.bookedClients.filter (fun id => id ≠ clientId) }
      else s) }
  | .deleteShift sid => { st with shifts := st.shifts.filter (fun s => s.id ≠ sid) }

/-- The valid initial state: no shifts yet. -/
def initState : SchedState := { shifts := [], nextId := 0 }

/-- Run a sequence of shift operations from the initial state. -/
def runOps (ops : List Op) : SchedState := ops.foldl applyOp initState

/-- Side condition on one operation in a state: a successful shift
update must not set the capacity below the number of clients already
booked on the targeted shift. All other operations are unrestricted. -/
def okOp (st : SchedState) : Op → Bool
  | .update sid inp =>
    !shiftInputValid inp ||
      st.shifts.all (fun s => s.id ≠ sid || (s.bookedClients.length : Int) ≤ inp.capacity)
  | _ => true

/-- A sequence of operations is safe from a state when every operation
satisfies `okOp` in the state where it executes. -/
def SafeOps : SchedState → List Op → Bool
  | _, [] => true
  | st, op :: rest => okOp st op && SafeOps (applyOp st op) rest

/-- The per-shift invariant of the spec: bookings within capacity and no
duplicate client ids. -/
def shiftOK (s : Shift) : Prop :=
  (s.bookedClients.length : Int) ≤ s.capacity ∧ s.bookedClients.Nodup

/-- All shifts of a state satisfy the invariant. -/
def schedInvariant (st : SchedState) : Prop :=
  ∀ s ∈ st.shifts, shiftOK s

/-! ## Theorems -/

/-- C1: for every shift and client id, booking fails with AlreadyBooked
when the client id is already in `bookedClients`, fails with
CapacityExceeded when the number of booked clients is at least the
capacity, leaving `bookedClients` unchanged in both failure cases (the
returned shift is the original), and otherwise appends the client id to
`bookedClients`. -/
theorem handleBookClient_spec (shift : Shift) (clientId : String) :
    (clientId ∈ shift.bookedClients →
      handleBookClient shift clientId = (BookResult.alreadyBooked, shift)) ∧
    (clientId ∉ shift.bookedClients →
      shift.capacity ≤ (shift.bookedClients.length : Int) →
      handleBookClient shift clientId = (BookResult.capacityExceeded, shift)) ∧
    (clientId ∉ shift.bookedClients →
      (shift.bookedClients.length : Int) < shift.capacity →
      handleBookClient shift clientId =
        (BookResult.success,
          { shift with bookedClients := shift.bookedClients ++ [clientId] })) := by
  refine ⟨fun h => ?_, fun h hc => ?_, fun h hc => ?_⟩
  · simp [handleBookClient, h]
  · simp [handleBookClient, h, hc]
  · simp [handleBookClient, h, not_le.mpr hc]

/-- A concrete shift used by the witnesses. -/
def shiftA : Shift :=
  { id := 0, date := "2025-03-01", time := "10:00", capacity := 2,
    modalityId := "m1", bookedClients := ["c1"] }

/-- Witness for C1: the three booking outcomes at concrete shifts. -/
theorem handleBookClient_spec_witness :
    handleBookClient shiftA "c1" = (BookResult.alreadyBooked, shiftA) ∧
    handleBookClient { shiftA with capacity := 1 } "c2" =
      (BookResult.capacityExceeded, { shiftA with capacity := 1 }) ∧
    handleBookClient shiftA "c2" =
      (BookResult.success, { shiftA with bookedClients := ["c1", "c2"] }) := by
  refine ⟨(handleBookClient_spec shiftA "c1").1 (by decide),
          (handleBookClient_spec { shiftA with capacity := 1 } "c2").2.1
            (by decide) (by decide),
          ?_⟩
  have h := (handleBookClient_spec shiftA "c2").2.2 (by decide) (by decide)
  exact h

/-- C3: the derived payment status is Paid iff some payment record has
the client id and the date's month and year; with no such payment it is
Overdue iff the day-of-month exceeds 10 and Pending otherwise. -/
theorem getPaymentStatus_spec (payments : List Payment) (clientId : String)
    (today : DateParts) :
    (getPaymentStatus payments clientId today = PaymentStatus.paid ↔
      ∃ p ∈ payments, p.clientId = clientId ∧ p.paymentMonth = today.month ∧
        p.paymentYear = today.year) ∧
    ((¬ ∃ p ∈ payments, p.clientId = clientId ∧ p.paymentMonth = today.month ∧
        p.paymentYear = today.year) →
      (getPaymentStatus payments clientId today = PaymentStatus.overdue ↔
        10 < today.day) ∧
      (getPaymentStatus payments clientId today = PaymentStatus.pending ↔
        today.day ≤ 10)) := by
  have hany : payments.any (paymentMatches clientId today) = true ↔
      ∃ p ∈ payments, p.clientId = clientId ∧ p.paymentMonth = today.month ∧
        p.paymentYear = today.year := by
    simp [List.any_eq_true, paymentMatches, and_assoc]
  cases ha : payments.any (paymentMatches clientId today) with
  | true =>
    exact ⟨⟨fun _ => hany.mp ha, fun _ => by simp [getPaymentStatus, ha]⟩,
           fun hne => absurd (hany.mp ha) hne⟩
  | false =>
    have hne' : ¬ ∃ p ∈ payments, p.clientId = clientId ∧
        p.paymentMonth = today.month ∧ p.paymentYear = today.year := by
      intro hex
      rw [hany.mpr hex] at ha
      exact Bool.true_eq_false.mp ha
    refine ⟨⟨fun hp => ?_, fun hex => absurd hex hne'⟩, fun _ => ?_⟩
    · by_cases hday : 10 < today.day <;> simp [getPaymentStatus, ha, hday] at hp
    · by_cases hday : 10 < today.day
      · constructor
        · simp [getPaymentStatus, ha, hday]
        · simp [getPaymentStatus, ha, hday]
      · constructor
        · simp [getPaymentStatus, ha, hday]
        · simp [getPaymentStatus, ha, hday]
          omega

/-- A concrete payment used by the witnesses. -/
def paymentA : Payment :=
  { clientId := "c1", amount := 50, paymentMonth := 3, paymentYear := 2025,
    recordedAt := 0 }

/-- Witness for C3: a client with a March 2025 payment is Paid any day
of March 2025; with no payments, the 11th is Overdue and the 9th is
Pending. -/
theorem getPaymentStatus_spec_witness :
    getPaymentStatus [paymentA] "c1" ⟨3, 2025, 20⟩ = PaymentStatus.paid ∧
    getPaymentStatus [] "c1" ⟨3, 2025, 11⟩ = PaymentStatus.overdue ∧
    getPaymentStatus [] "c1" ⟨3, 2025, 9⟩ = PaymentStatus.pending := by
  refine ⟨(getPaymentStatus_spec [paymentA] "c1" ⟨3, 2025, 20⟩).1.mpr
            ⟨paymentA, by decide, by decide⟩,
          ((getPaymentStatus_spec [] "c1" ⟨3, 2025, 11⟩).2 (by simp)).1.mpr
            (by decide),
          ((getPaymentStatus_spec [] "c1" ⟨3, 2025, 9⟩).2 (by simp)).2.mpr
            (by decide)⟩

/-- C4: unbooking removes the client id from `bookedClients`; when the
id is not present the shift document is left unchanged. The operation is
total (no error path exists in `handleRemoveClientFromShift`). -/
theorem handleRemoveClientFromShift_spec (shift : Shift) (clientId : String) :
    clientId ∉ (handleRemoveClientFromShift shift clientId).bookedClients ∧
    (clientId ∉ shift.bookedClients →
      handleRemoveClientFromShift shift clientId = shift) := by
  constructor
  · simp [handleRemoveClientFromShift]
  · intro h
    have hself : shift.bookedClients.filter (fun id => id ≠ clientId) =
        shift.bookedClients := by
      rw [List.filter_eq_self]
      intro a ha
      exact decide_eq_true fun he => h (he ▸ ha)
    cases shift with
    | mk id date time capacity modalityId bookedClients =>
      simp [handleRemoveClientFromShift] at hself ⊢
      exact hself

/-- Witness for C4: removing an absent id from a concrete shift is a
no-op, and the removed id is absent afterwards. -/
theorem handleRemoveClientFromShift_spec_witness :
    "c1" ∉ (handleRemoveClientFromShift shiftA "c1").bookedClients ∧
    handleRemoveClientFromShift shiftA "c9" = shiftA := by
  exact ⟨(handleRemoveClientFromShift_spec shiftA "c1").1,
         (handleRemoveClientFromShift_spec shiftA "c9").2 (by decide)⟩

/-- C10: the payment status for a fixed client and date depends only on
the payments matching that client and that month/year; two payment lists
agreeing on that subset yield the same status. -/
theorem getPaymentStatus_noninterference (ps1 ps2 : List Payment)
    (clientId : String) (today : DateParts)
    (h : ps1.filter (paymentMatches clientId today) =
         ps2.filter (paymentMatches clientId today)) :
    getPaymentStatus ps1 clientId today = getPaymentStatus ps2 clientId today := by
  have key : ∀ l : List Payment, l.any (paymentMatches clientId today) =
      !(l.filter (paymentMatches clientId today)).isEmpty := by
    intro l
    induction l with
    | nil => rfl
    | cons p rest ih =>
      cases hp : paymentMatches clientId today p <;>
        simp [List.any_cons, List.filter_cons, hp, ih]
  have hsame : ps1.any (paymentMatches clientId today) =
      ps2.any (paymentMatches clientId today) := by
    rw [key, key, h]
  simp [getPaymentStatus, hsame]

/-- Witness for C10: adding a payment of another client does not change
the status. -/
theorem getPaymentStatus_noninterference_witness :
    getPaymentStatus [paymentA] "c1" ⟨3, 2025, 20⟩ =
      getPaymentStatus [paymentA, { paymentA with clientId := "c2" }] "c1"
        ⟨3, 2025, 20⟩ := by
  exact getPaymentStatus_noninterference [paymentA]
    [paymentA, { paymentA with clientId := "c2" }] "c1" ⟨3, 2025, 20⟩ (by decide)

/-- C6: after deleting a client that has payments and appears in some
shifts' booked lists, no payment with that client id remains, the id is
absent from every shift's `bookedClients`, and the client document is
absent. -/
theorem confirmDeleteClient_spec (st : GymState) (cid : String)
    (_hp : ∃ p ∈ st.payments, p.clientId = cid)
    (_hs : ∃ s ∈ st.shifts, cid ∈ s.bookedClients) :
    (∀ p ∈ (confirmDeleteClient st cid).payments, p.clientId ≠ cid) ∧
    (∀ s ∈ (confirmDeleteClient st cid).shifts, cid ∉ s.bookedClients) ∧
    (∀ c ∈ (confirmDeleteClient st cid).clients, c.id ≠ cid) := by
  refine ⟨fun p hq => ?_, fun s ht => ?_, fun c hc => ?_⟩
  · simp [confirmDeleteClient, List.mem_filter] at hq
    exact hq.2
  · simp only [confirmDeleteClient, List.mem_map] at ht
    obtain ⟨s0, _, rfl⟩ := ht
    by_cases hmem : cid ∈ s0.bookedClients
    · simp [hmem, List.mem_filter]
    · simp [hmem]
  · simp [confirmDeleteClient, List.mem_filter] at hc
    exact hc.2

/-- A concrete pre-deletion state: client c1 with two payments, booked
in one shift. -/
def stateA : GymState :=
  { clients := [{ id := "c1", name := "Ana", associatedUserUid := none }],
    payments := [paymentA, { paymentA with paymentMonth := 4 }],
    shifts := [shiftA],
    modalities := ["m1"] }

/-- Witness for C6: cascading deletion of c1 in `stateA`. -/
theorem confirmDeleteClient_spec_witness :
    (∀ p ∈ (confirmDeleteClient stateA "c1").payments, p.clientId ≠ "c1") ∧
    (∀ s ∈ (confirmDeleteClient stateA "c1").shifts, "c1" ∉ s.bookedClients) ∧
    (∀ c ∈ (confirmDeleteClient stateA "c1").clients, c.id ≠ "c1") := by
  exact confirmDeleteClient_spec stateA "c1"
    ⟨paymentA, by decide, by decide⟩ ⟨shiftA, by decide, by decide⟩

/-- C7: deleting a modality referenced by at least one shift fails with
the referential conflict and leaves the state (hence the modality
document) unchanged; deleting an unreferenced modality succeeds and
removes it from the catalog. -/
theorem confirmDeleteModality_spec (st : GymState) (mid : String) :
    ((∃ s ∈ st.shifts, s.modalityId = mid) →
      confirmDeleteModality st mid = (DeleteModalityResult.referentialConflict, st)) ∧
    ((∀ s ∈ st.shifts, s.modalityId ≠ mid) →
      (confirmDeleteModality st mid).1 = DeleteModalityResult.success ∧
      mid ∉ (confirmDeleteModality st mid).2.modalities) := by
  constructor
  · intro hex
    have hany : st.shifts.any (fun s => s.modalityId == mid) = true := by
      obtain ⟨s, hs, he⟩ := hex
      exact List.any_eq_true.mpr ⟨s, hs, by simp [he]⟩
    simp [confirmDeleteModality, hany]
  · intro hall
    have hany : st.shifts.any (fun s => s.modalityId == mid) = false := by
      rw [List.any_eq_false]
      intro s hs
      simp [hall s hs]
    refine ⟨by simp [confirmDeleteModality, hany], ?_⟩
    simp [confirmDeleteModality, hany, List.mem_filter]

/-- Witness for C7: deleting m1 (referenced by `shiftA`) conflicts, and
deleting the unreferenced m2 succeeds. -/
theorem confirmDeleteModality_spec_witness :
    confirmDeleteModality stateA "m1" =
      (DeleteModalityResult.referentialConflict, stateA) ∧
    (confirmDeleteModality { stateA with modalities := ["m1", "m2"] } "m2").1 =
      DeleteModalityResult.success ∧
    "m2" ∉ (confirmDeleteModality { stateA with modalities := ["m1", "m2"] } "m2").2.modalities := by
  refine ⟨(confirmDeleteModality_spec stateA "m1").1 ⟨shiftA, by decide, by decide⟩, ?_⟩
  exact (confirmDeleteModality_spec { stateA with modalities := ["m1", "m2"] } "m2").2
    (by decide)

/-- C9: shift creation fails when date, time or modality is missing or
the capacity is below 1, creating no shift; otherwise it appends a shift
with an empty `bookedClients` list. -/
theorem handleAddShift_spec (shifts : List Shift) (nextId : Nat) (inp : ShiftInput) :
    (handleAddShift shifts nextId inp = none ↔
      (inp.date = "" ∨ inp.time = "" ∨ inp.capacity < 1 ∨ inp.modalityId = "")) ∧
    ((inp.date ≠ "" ∧ inp.time ≠ "" ∧ 1 ≤ inp.capacity ∧ inp.modalityId ≠ "") →
      handleAddShift shifts nextId inp =
        some (shifts ++ [{ id := nextId, date := inp.date, time := inp.time,
                           capacity := inp.capacity, modalityId := inp.modalityId,
                           bookedClients := [] }])) := by
  constructor
  · constructor
    · intro h
      by_contra hne
      push_neg at hne
      have hvalid : shiftInputValid inp = true := by
        simp [shiftInputValid, hne.1, hne.2.1, hne.2.2.2]
        omega
      simp [handleAddShift, hvalid] at h
    · intro h
      have hinvalid : shiftInputValid inp = false := by
        rcases h with h | h | h | h
        · simp [shiftInputValid, h]
        · simp [shiftInputValid, h]
        · have hle : inp.capacity ≤ 0 := by omega
          simp [shiftInputValid, hle]
        · simp [shiftInputValid, h]
      simp [handleAddShift, hinvalid]
  · intro ⟨h1, h2, h3, h4⟩
    have hvalid : shiftInputValid inp = true := by
      simp [shiftInputValid, h1, h2, h4]
      omega
    simp [handleAddShift, hvalid]

/-- Witness for C9: missing modality is rejected; a valid form creates
the shift with empty bookings. -/
theorem handleAddShift_spec_witness :
    handleAddShift [] 0 ⟨"2025-03-01", "10:00", 10, ""⟩ = none ∧
    handleAddShift [] 0 ⟨"2025-03-01", "10:00", 10, "m1"⟩ =
      some [{ id := 0, date := "2025-03-01", time := "10:00", capacity := 10,
              modalityId := "m1", bookedClients := [] }] := by
  exact ⟨(handleAddShift_spec [] 0 ⟨"2025-03-01", "10:00", 10, ""⟩).1.mpr
           (by decide),
         (handleAddShift_spec [] 0 ⟨"2025-03-01", "10:00", 10, "m1"⟩).2
           (by refine ⟨by decide, by decide, by decide, by decide⟩)⟩

/-- Counterexample for C8 as stated: month 13 lies outside [1,12], yet
`handleAddPayment` accepts it (the handler only tests `!newPaymentMonth`,
i.e. falsiness, never the 1..12 range) and creates the payment instead
of failing with a validation error. -/
theorem handleAddPayment_month13 :
    handleAddPayment [] 100 { clientId := "c1", amount := some 50, month := 13, year := 2025 } =
      some [{ clientId := "c1", amount := 50, paymentMonth := 13, paymentYear := 2025,
              recordedAt := 100 }] := by
  decide

/-- C8 (amended): payment recording fails exactly when the client id is
missing, the amount is missing, unparseable or `≤ 0`, or the month or
year is missing (zero); months outside [1,12] other than 0 are not
rejected. On success the created payment carries the input fields and
the current time as its recording timestamp; on failure no payment is
created. -/
theorem handleAddPayment_spec (payments : List Payment) (now : Int)
    (inp : PaymentInput) :
    (handleAddPayment payments now inp = none ↔
      (inp.clientId = "" ∨ inp.amount = none ∨
        (∃ a, inp.amount = some a ∧ a ≤ 0) ∨ inp.month = 0 ∨ inp.year = 0)) ∧
    (∀ a, inp.amount = some a → 0 < a → inp.clientId ≠ "" →
      inp.month ≠ 0 → inp.year ≠ 0 →
      handleAddPayment payments now inp =
        some (payments ++ [{ clientId := inp.clientId, amount := a,
                             paymentMonth := inp.month, paymentYear := inp.year,
                             recordedAt := now }])) := by
  constructor
  · constructor
    · intro h
      by_contra hne
      push_neg at hne
      obtain ⟨h1, h2, h3, h4, h5⟩ := hne
      have hfail1 : ¬ (inp.clientId = "" ∨ inp.amount = none ∨
          (∃ a, inp.amount = some a ∧ a ≤ 0)) := by
        push_neg
        exact ⟨h1, h2, h3⟩
      have hfail2 : ¬ (inp.month = 0 ∨ inp.year = 0) := by
        push_neg
        exact ⟨h4, h5⟩
      simp only [handleAddPayment, if_neg hfail1, if_neg hfail2] at h
      exact Option.noConfusion h
    · intro h
      rcases h with h | h | h | h | h
      · simp [handleAddPayment, h]
      · simp [handleAddPayment, h]
      · have : inp.clientId = "" ∨ inp.amount = none ∨
            (∃ a, inp.amount = some a ∧ a ≤ 0) := Or.inr (Or.inr h)
        simp [handleAddPayment, this]
      · by_cases hfirst : inp.clientId = "" ∨ inp.amount = none ∨
            (∃ a, inp.amount = some a ∧ a ≤ 0)
        · simp [handleAddPayment, hfirst]
        · simp [handleAddPayment, hfirst, h]
      · by_cases hfirst : inp.clientId = "" ∨ inp.amount = none ∨
            (∃ a, inp.amount = some a ∧ a ≤ 0)
        · simp [handleAddPayment, hfirst]
        · simp [handleAddPayment, hfirst, h]
  · intro a ha hpos h1 h4 h5
    have hfail1 : ¬ (inp.clientId = "" ∨ inp.amount = none ∨
        (∃ a, inp.amount = some a ∧ a ≤ 0)) := by
      push_neg
      refine ⟨h1, by simp [ha], fun b hb => ?_⟩
      rw [ha] at hb
      cases Option.some.inj hb
      omega
    have hfail2 : ¬ (inp.month = 0 ∨ inp.year = 0) := by
      push_neg
      exact ⟨h4, h5⟩
    simp only [handleAddPayment, if_neg hfail1, if_neg hfail2, ha, Option.getD_some]
    rw [if_neg]
    push_neg
    refine ⟨h1, fun hn => Option.noConfusion hn, fun b hb => ?_⟩
    cases Option.some.inj hb
    omega

/-- Witness for C8 (amended): a zero amount is rejected; a valid form
creates the stamped payment. -/
theorem handleAddPayment_spec_witness :
    handleAddPayment [] 100 { clientId := "c1", amount := some 0, month := 3, year := 2025 } =
      none ∧
    handleAddPayment [] 100 { clientId := "c1", amount := some 50, month := 3, year := 2025 } =
      some [{ clientId := "c1", amount := 50, paymentMonth := 3, paymentYear := 2025,
              recordedAt := 100 }] := by
  refine ⟨(handleAddPayment_spec [] 100
            { clientId := "c1", amount := some 0, month := 3, year := 2025 }).1.mpr
            (Or.inr (Or.inr (Or.inl ⟨0, rfl, le_refl 0⟩))), ?_⟩
  exact (handleAddPayment_spec [] 100
    { clientId := "c1", amount := some 50, month := 3, year := 2025 }).2
    50 rfl (by decide) (by decide) (by decide) (by decide)

/-- C5 (no-match half): if no admin tenant's roster links the account
id, the scan reports NotAssociated (`none`). -/
theorem fetchClientProfile_none (users : List UserDoc) (userId : String)
    (h : ∀ u ∈ users, u.role = "admin" →
      ∀ c ∈ u.clients, c.associatedUserUid ≠ some userId) :
    fetchClientProfile users userId = none := by
  induction users with
  | nil => rfl
  | cons v rest ih =>
    have hrest : fetchClientProfile rest userId = none :=
      ih fun u hu => h u (List.mem_cons_of_mem v hu)
    by_cases hv : v.role = "admin"
    · have hfil : v.clients.filter (fun c => c.associatedUserUid = some userId) = [] := by
        rw [List.filter_eq_nil_iff]
        intro c hc hd
        exact h v (List.mem_cons_self v rest) hv c hc (of_decide_eq_true hd)
      simp only [fetchClientProfile, if_pos hv, hfil, hrest]
    · simp only [fetchClientProfile, if_neg hv, hrest]

/-- C5: when exactly one admin tenant's roster contains a client linked
to the account id, the scan returns that tenant's id together with a
linked client of its roster; when no admin tenant's roster links the
account id, the resolver reports NotAssociated (`none`), a guidance
state rather than a failure. -/
theorem fetchClientProfile_spec (users : List UserDoc) (userId : String) :
    (∀ u ∈ users, u.role = "admin" →
      ∀ c ∈ u.clients, c.associatedUserUid = some userId →
      (∀ v ∈ users, v.role = "admin" →
        (∃ d ∈ v.clients, d.associatedUserUid = some userId) → v = u) →
      ∃ c2, fetchClientProfile users userId = some (u.id, c2) ∧
        c2 ∈ u.clients ∧ c2.associatedUserUid = some userId) ∧
    ((∀ u ∈ users, u.role = "admin" →
      ∀ c ∈ u.clients, c.associatedUserUid ≠ some userId) →
      fetchClientProfile users userId = none) := by
  refine ⟨?_, fetchClientProfile_none users userId⟩
  induction users with
  | nil => intro u hu; exact absurd hu (List.not_mem_nil u)
  | cons v rest ih =>
    intro u hu hrole c hc hlink huniq
    by_cases hv : v.role = "admin"
    · cases hfil : v.clients.filter (fun c => c.associatedUserUid = some userId) with
      | nil =>
        have hune : u ≠ v := by
          rintro rfl
          have : c ∈ u.clients.filter (fun c => c.associatedUserUid = some userId) :=
            List.mem_filter.mpr ⟨hc, decide_eq_true hlink⟩
          rw [hfil] at this
          exact absurd this (List.not_mem_nil c)
        have hur : u ∈ rest := by
          rcases List.mem_cons.mp hu with h | h
          · exact absurd h hune
          · exact h
        have huniq' : ∀ w ∈ rest, w.role = "admin" →
            (∃ d ∈ w.clients, d.associatedUserUid = some userId) → w = u :=
          fun w hw => huniq w (List.mem_cons_of_mem v hw)
        obtain ⟨c2, hres, hmem, hl⟩ := ih u hur hrole c hc hlink huniq'
        exact ⟨c2, by simp only [fetchClientProfile, if_pos hv, hfil, hres], hmem, hl⟩
      | cons c0 cs =>
        have hc0 : c0 ∈ v.clients.filter (fun c => c.associatedUserUid = some userId) := by
          rw [hfil]; exact List.mem_cons_self c0 cs
        have hc0' := List.mem_filter.mp hc0
        have hc0link : c0.associatedUserUid = some userId :=
          of_decide_eq_true hc0'.2
        have hvu : v = u :=
          huniq v (List.mem_cons_self v rest) hv ⟨c0, hc0'.1, hc0link⟩
        subst hvu
        exact ⟨c0, by simp only [fetchClientProfile, if_pos hv, hfil], hc0'.1, hc0link⟩
    · have hune : u ≠ v := fun he => hv (he ▸ hrole)
      have hur : u ∈ rest := by
        rcases List.mem_cons.mp hu with h | h
        · exact absurd h hune
        · exact h
      have huniq' : ∀ w ∈ rest, w.role = "admin" →
          (∃ d ∈ w.clients, d.associatedUserUid = some userId) → w = u :=
        fun w hw => huniq w (List.mem_cons_of_mem v hw)
      obtain ⟨c2, hres, hmem, hl⟩ := ih u hur hrole c hc hlink huniq'
      exact ⟨c2, by simp only [fetchClientProfile, if_neg hv, hres], hmem, hl⟩

/-- A concrete scan input: one non-admin doc, one admin tenant whose
roster links account u9, one admin tenant without the link. -/
def usersA : List UserDoc :=
  [{ id := "t0", role := "client", clients := [] },
   { id := "t1", role := "admin",
     clients := [{ id := "c1", name := "Ana", associatedUserUid := some "u9" }] },
   { id := "t2", role := "admin",
     clients := [{ id := "c2", name := "Bob", associatedUserUid := none }] }]

/-- Witness for C5: account u9 resolves to tenant t1's linked client;
account u8, linked nowhere, resolves to NotAssociated. -/
theorem fetchClientProfile_spec_witness :
    (∃ c2, fetchClientProfile usersA "u9" = some ("t1", c2) ∧
      c2 ∈ ({ id := "t1", role := "admin",
              clients := [{ id := "c1", name := "Ana",
                            associatedUserUid := some "u9" }] } : UserDoc).clients ∧
      c2.associatedUserUid = some "u9") ∧
    fetchClientProfile usersA "u8" = none := by
  refine ⟨(fetchClientProfile_spec usersA "u9").1
            { id := "t1", role := "admin",
              clients := [{ id := "c1", name := "Ana",
                            associatedUserUid := some "u9" }] }
            (by decide) rfl
            { id := "c1", name := "Ana", associatedUserUid := some "u9" }
            (by decide) rfl (by decide), ?_⟩
  exact (fetchClientProfile_spec usersA "u8").2 (by decide)

/-- Booking preserves the per-shift invariant: failures leave the shift
untouched and a successful append is guarded by the membership and
capacity checks. -/
theorem shiftOK_handleBookClient (s : Shift) (cid : String) (h : shiftOK s) :
    shiftOK (handleBookClient s cid).2 := by
  by_cases hmem : cid ∈ s.bookedClients
  · simpa [handleBookClient, hmem] using h
  · by_cases hcap : s.capacity ≤ (s.bookedClients.length : Int)
    · simpa [handleBookClient, hmem, hcap] using h
    · push_neg at hcap
      refine ⟨?_, ?_⟩
      · simp [handleBookClient, hmem, not_le.mpr hcap, shiftOK]
        omega
      · simp [handleBookClient, hmem, not_le.mpr hcap, shiftOK,
          List.nodup_append, h.2, hmem]

/-- Filtering the booked list preserves the per-shift invariant. -/
theorem shiftOK_filterBooked (s : Shift) (p : String → Bool) (h : shiftOK s) :
    shiftOK { s with bookedClients := s.bookedClients.filter p } := by
  refine ⟨?_, h.2.filter p⟩
  have hle : (s.bookedClients.filter p).length ≤ s.bookedClients.length :=
    List.length_filter_le p s.bookedClients
  have := h.1
  simp only at *
  omega

/-- A valid shift form has positive capacity. -/
theorem shiftInputValid_capacity {inp : ShiftInput} (h : shiftInputValid inp = true) :
    0 < inp.capacity := by
  simp [shiftInputValid] at h
  omega

/-- Every operation preserves the scheduler invariant, given its
`okOp` side condition. -/
theorem schedInvariant_applyOp (st : SchedState) (op : Op)
    (hinv : schedInvariant st) (hok : okOp st op = true) :
    schedInvariant (applyOp st op) := by
  cases op with
  | create inp =>
    by_cases hvalid : shiftInputValid inp = true
    · intro s hs
      simp only [applyOp, handleAddShift, if_pos hvalid, List.mem_append] at hs
      rcases hs with h | h
      · exact hinv s h
      · have hcap := shiftInputValid_capacity hvalid
        rcases List.mem_singleton.mp h with rfl
        exact ⟨by simpa using le_of_lt hcap, List.nodup_nil⟩
    · intro s hs
      simp only [applyOp, handleAddShift, if_neg hvalid] at hs
      exact hinv s hs
  | update sid inp =>
    by_cases hvalid : shiftInputValid inp = true
    · intro s hs
      simp only [applyOp, handleUpdateShift, if_pos hvalid, List.mem_map] at hs
      obtain ⟨s0, hs0, rfl⟩ := hs
      simp only [okOp, hvalid, Bool.not_true, Bool.false_or, List.all_eq_true] at hok
      by_cases hid : s0.id = sid
      · have hcap : (s0.bookedClients.length : Int) ≤ inp.capacity := by
          have := hok s0 hs0
          simp [hid] at this
          exact this
        simp only [if_pos hid]
        exact ⟨hcap, (hinv s0 hs0).2⟩
      · simp only [if_neg hid]
        exact hinv s0 hs0
    · intro s hs
      simp only [applyOp, handleUpdateShift, if_neg hvalid] at hs
      exact hinv s hs
  | book sid cid =>
    by_cases hcid : cid = ""
    · intro s hs
      simp only [applyOp, if_pos hcid] at hs
      exact hinv s hs
    · intro s hs
      simp only [applyOp, if_neg hcid, List.mem_map] at hs
      obtain ⟨s0, hs0, rfl⟩ := hs
      by_cases hid : s0.id = sid
      · simp only [if_pos hid]
        exact shiftOK_handleBookClient s0 cid (hinv s0 hs0)
      · simp only [if_neg hid]
        exact hinv s0 hs0
  | unbook sid cid =>
    intro s hs
    simp only [applyOp, List.mem_map] at hs
    obtain ⟨s0, hs0, rfl⟩ := hs
    by_cases hid : s0.id = sid
    · simp only [if_pos hid]
      exact shiftOK_filterBooked s0 _ (hinv s0 hs0)
    · simp only [if_neg hid]
      exact hinv s0 hs0
  | removeClient cid =>
    intro s hs
    simp only [applyOp, List.mem_map] at hs
    obtain ⟨s0, hs0, rfl⟩ := hs
    by_cases hmem : cid ∈ s0.bookedClients
    · simp only [if_pos hmem]
      exact shiftOK_filterBooked s0 _ (hinv s0 hs0)
    · simp only [if_neg hmem]
      exact hinv s0 hs0
  | deleteShift sid =>
    intro s hs
    simp only [applyOp, List.mem_filter] at hs
    exact hinv s hs.1

/-- The invariant propagates along any safe operation sequence. -/
theorem schedInvariant_foldl (ops : List Op) :
    ∀ st, schedInvariant st → SafeOps st ops = true →
      schedInvariant (ops.foldl applyOp st) := by
  induction ops with
  | nil => exact fun st h _ => h
  | cons op rest ih =>
    intro st h hsafe
    simp only [SafeOps, Bool.and_eq_true] at hsafe
    exact ih (applyOp st op) (schedInvariant_applyOp st op h hsafe.1) hsafe.2

/-- A run exhibiting the capacity-drop violation: create a shift of
capacity 2, book two clients, then shrink the capacity to 1 via the
update form (which only validates `capacity > 0`). -/
def capacityDropOps : List Op :=
  [Op.create { date := "2025-03-01", time := "10:00", capacity := 2, modalityId := "m1" },
   Op.book 0 "c1",
   Op.book 0 "c2",
   Op.update 0 { date := "2025-03-01", time := "10:00", capacity := 1, modalityId := "m1" }]

/-- Counterexample for C2 as stated: the state reached by
`capacityDropOps` holds a shift with two booked clients and capacity 1,
so `|bookedClients| ≤ capacity` does not hold in every reachable
state. -/
theorem schedInvariant_counterexample :
    ∃ s ∈ (runOps capacityDropOps).shifts,
      ¬ ((s.bookedClients.length : Int) ≤ s.capacity) := by
  decide

/-- C2 (amended): in every state reached from the empty initial state by
a sequence of shift operations in which every successful update keeps
the capacity at least the number of clients already booked on the
targeted shift, every shift has at most `capacity` booked clients and no
duplicate client ids. (The unrestricted claim fails: the update form
never compares the new capacity against the existing bookings, see the
counterexample.) -/
theorem schedInvariant_spec (ops : List Op) (h : SafeOps initState ops = true) :
    ∀ s ∈ (runOps ops).shifts,
      (s.bookedClients.length : Int) ≤ s.capacity ∧ s.bookedClients.Nodup :=
  schedInvariant_foldl ops initState (fun s hs => absurd hs (List.not_mem_nil s)) h

/-- A safe concrete run: create, book, shrink capacity to the current
booking count, unbook. -/
def safeDemoOps : List Op :=
  [Op.create { date := "2025-03-01", time := "10:00", capacity := 2, modalityId := "m1" },
   Op.book 0 "c1",
   Op.update 0 { date := "2025-03-01", time := "11:00", capacity := 1, modalityId := "m1" },
   Op.unbook 0 "c1"]

/-- The single shift present after `safeDemoOps`. -/
def shiftAfterDemo : Shift :=
  { id := 0, date := "2025-03-01", time := "11:00", capacity := 1,
    modalityId := "m1", bookedClients := [] }

/-- Witness for C2 (amended): the invariant at the shift reached by the
safe concrete run. -/
theorem schedInvariant_spec_witness :
    (shiftAfterDemo.bookedClients.length : Int) ≤ shiftAfterDemo.capacity ∧
    shiftAfterDemo.bookedClients.Nodup :=
  schedInvariant_spec safeDemoOps (by decide) shiftAfterDemo (by decide)

end GymApp
